import Mathlib

/-!
Shallow embedding of `aioes/transport.py` (the `Transport` class) and proofs
about it.  Pure pieces of the Python code become Lean functions; the mutable
`Transport` object becomes an explicit `TransportState` threaded through the
operations; exceptions become `Except` results; the external collaborators
(`Connection.perform_request`, `ConnectionPool`, `random.shuffle`,
`time.monotonic`) become explicit parameters.  Ghost fields (`closed`,
`events`) record the collaborator calls the code makes, in order.
-/

set_option linter.unusedVariables false

deriving instance DecidableEq for Except

namespace Aioes

/-- An endpoint value: `Endpoint = collections.namedtuple('TCPEndpoint', 'host port')`
(transport.py line 15).  Value-equal and usable as a dictionary key. -/
structure Endpoint where
  host : String
  port : Nat
deriving DecidableEq, Repr

/-- A `Connection` object (external collaborator).  Python object identity is
modelled by the `id` field: two connections are the same object iff equal here. -/
structure Connection where
  id : Nat
  endpoint : Endpoint
deriving DecidableEq, Repr

/-! ### The address regex

`ADDRESS_RE = re.compile(r'/(?P<host>[\.:0-9a-f]*):(?P<port>[0-9]+)\]?$')`
(transport.py line 29), used with `.search`.  The pattern is end-anchored, so a
match is a suffix of the string; `search` finds the leftmost starting position,
and each greedy group tries the longest prefix first and backtracks. -/

/-- Character class `[\.:0-9a-f]` of the `host` group. -/
def isHostChar (c : Char) : Bool :=
  c = '.' || c = ':' || c.isDigit || ('a'.toNat ≤ c.toNat && c.toNat ≤ 'f'.toNat)

/-- Character class `[0-9]` of the `port` group. -/
def isDigitChar (c : Char) : Bool :=
  c.isDigit

/-- Greedy match of `(?P<port>[0-9]+)\]?$` against `r`: try the port length
`k+1` (longest first, backtracking downwards); after the port the remainder
must be empty or a single closing bracket. -/
def findPortFrom (r : List Char) : Nat → Option (List Char)
  | 0 => none
  | k + 1 =>
    if r.drop (k + 1) = [] || r.drop (k + 1) = [']'] then some (r.take (k + 1))
    else findPortFrom r k

/-- Match `(?P<port>[0-9]+)\]?$` against all of `r`, starting from the maximal
digit prefix. -/
def findPort (r : List Char) : Option (List Char) :=
  findPortFrom r (r.takeWhile isDigitChar).length

/-- Match `:(?P<port>[0-9]+)\]?$` at the start of `rest`. -/
def tailMatch : List Char → Option (List Char)
  | ':' :: r => findPort r
  | _ => none

/-- Greedy backtracking for the `host` group: try host length `k+1` first
(longest), then shorter, finally the empty host. -/
def hostBacktrack (cs : List Char) : Nat → Option (List Char × List Char)
  | 0 =>
    match tailMatch cs with
    | some p => some ([], p)
    | none => none
  | k + 1 =>
    match tailMatch (cs.drop (k + 1)) with
    | some p => some (cs.take (k + 1), p)
    | none => hostBacktrack cs k

/-- Match `(?P<host>[\.:0-9a-f]*):(?P<port>[0-9]+)\]?$` against `cs`
(the text after a `/`), greedy in the host group. -/
def matchAfterSlash (cs : List Char) : Option (List Char × List Char) :=
  hostBacktrack cs (cs.takeWhile isHostChar).length

/-- `ADDRESS_RE.search`: scan left to right for the leftmost `/` at which the
end-anchored pattern matches; return the `(host, port)` groups. -/
def searchFrom : List Char → Option (List Char × List Char)
  | [] => none
  | c :: rest =>
    if c = '/' then
      match matchAfterSlash rest with
      | some m => some m
      | none => searchFrom rest
    else searchFrom rest

/-- The two named groups of a successful `ADDRESS_RE.search`. -/
structure AddrMatch where
  host : String
  port : String
deriving DecidableEq, Repr

/-- `ADDRESS_RE.search(s)` on a Python string. -/
def addressSearch (s : String) : Option AddrMatch :=
  match searchFrom s.toList with
  | some (h, p) => some (AddrMatch.mk (String.mk h) (String.mk p))
  | none => none

/-- `match.groupdict()`: the pattern has exactly the named groups `host` and
`port`, and both participate in every match, so the dictionary always carries
both keys. -/
def groupdict (m : AddrMatch) : List (String × String) :=
  [ ( "host", m.host ), ( "port", m.port ) ]

/-- Python `int()` on a digit string. -/
def parseNat (s : String) : Nat :=
  s.toList.foldl (fun a c => a * 10 + (c.toNat - 48)) 0

/-- Lines 148–153: `dct = match.groupdict()`, then
`port = int(dct['port']) if 'port' in dct else 9200`.  The key test and the
subscript are both rendered by the one dictionary lookup. -/
def portOfMatch (m : AddrMatch) : Nat :=
  match (groupdict m).lookup "port" with
  | some p => parseNat p
  | none => 9200

/-- Line 149: `host = dct['host']` (the key is always present in a match). -/
def hostOfMatch (m : AddrMatch) : String :=
  match (groupdict m).lookup "host" with
  | some h => h
  | none => ""

/-! ### Node filtering -/

/-- One value of the `nodes` mapping in the discovery response: the
`http_address` field (possibly absent) and the `attributes` mapping
(absence modelled as the empty mapping, as `n.get('attributes', {})` does). -/
structure Node where
  http_address : Option String
  attributes : List (String × String)
deriving DecidableEq, Repr

/-- `attrs.get(key, default)`. -/
def getAttr (attrs : List (String × String)) (key dflt : String) : String :=
  match attrs.lookup key with
  | some v => v
  | none => dflt

/-- Lines 141–158: turn the parsed node list into an endpoint list.  A node
whose address does not match `ADDRESS_RE` is skipped; a node is appended
unless `data == "false" and client == "false" and master == "true"`
(defaults `"true"`, `"false"`, `"true"` respectively). -/
def parseNodes : List Node → List Endpoint
  | [] => []
  | n :: ns =>
    match addressSearch (n.http_address.getD "") with
    | none => parseNodes ns
    | some m =>
      if !(getAttr n.attributes "data" "true" == "false" &&
           getAttr n.attributes "client" "false" == "false" &&
           getAttr n.attributes "master" "true" == "true") then
        Endpoint.mk (hostOfMatch m) (portOfMatch m) :: parseNodes ns
      else
        parseNodes ns

/-! ### Exceptions, endpoint specifications, conversion -/

/-- The exceptions the transport code raises or propagates. -/
inductive PyError where
  | keyError (key : String)
  | runtimeError (msg : String)
  | typeError
  | attributeError (attr : String)
  | connectionError (msg : String)
  | transportError (status msg : String)
deriving DecidableEq, Repr

/-- A raw endpoint specification, as accepted by `_convert_endpoints` or
assigned to the `endpoints` property: an `Endpoint`, a mapping with a `host`
key (possibly absent) and an optional `port` key, or any other object
(modelled as unhashable). -/
inductive EndpointSpec where
  | ep (e : Endpoint)
  | dict (host : Option String) (port : Option Nat)
  | other
deriving DecidableEq, Repr

/-- `_convert_endpoints` (lines 68–79): pass `Endpoint` entries through; for a
mapping take `e['host']` (a `KeyError` if absent) and `e.get('port', 9200)`;
raise `RuntimeError` for anything else.  The first bad entry raises. -/
def convertEndpoints : List EndpointSpec → Except PyError (List Endpoint)
  | [] => .ok []
  | .ep e :: rest =>
    match convertEndpoints rest with
    | .ok r => .ok (e :: r)
    | .error err => .error err
  | .dict none _ :: _ => .error (.keyError "host")
  | .dict (some h) p :: rest =>
    match convertEndpoints rest with
    | .ok r => .ok (Endpoint.mk h (p.getD 9200) :: r)
    | .error err => .error err
  | .other :: _ => .error (.runtimeError "Bad endpoint")

/-! ### Transport state -/

/-- Observable calls to the collaborators, recorded in order. -/
inductive Event where
  | sniffAttempt
  | poolMarkDead (c : Connection)
  | poolMarkLive (c : Connection)
  | connAttempt (n : Nat)
deriving DecidableEq, Repr

/-- The mutable state of a `Transport` object.  `sniffOnConnectionFail` models
the `_sniff_on_connection_fail` attribute: `none` means the attribute was never
assigned, so reading it raises `AttributeError`.  `nextId` is the model's
fresh-`Connection` counter; `closed` and `events` are ghost fields recording
released connections and collaborator calls. -/
structure TransportState where
  endpointsField : List EndpointSpec
  pool : List Connection
  seedConnections : List Connection
  snifferTimeout : Option ℚ
  sniffTimeout : ℚ
  lastSniff : ℚ
  maxRetries : Nat
  sniffOnConnectionFail : Option Bool
  nextId : Nat
  closed : List Connection
  events : List Event
deriving DecidableEq, Repr

/-- The `endpoints` property getter (lines 56–58): `list(self._endpoints)`. -/
def getEndpoints (st : TransportState) : List EndpointSpec :=
  st.endpointsField

/-! ### Pool reinitialization -/

/-- `{c.endpoint: c for c in self._pool.connections}` (line 82), queried at one
key: on duplicate endpoints the last connection wins, as in a Python dict
comprehension. -/
def oldLookup (pool : List Connection) (e : Endpoint) : Option Connection :=
  (pool.filter (fun c => decide (c.endpoint = e))).getLast?

/-- `ConnectionPool.detach(connection)`: remove that connection object from the
pool without closing it. -/
def removeFirst : List Connection → Connection → List Connection
  | [], _ => []
  | x :: xs, c => if x = c then xs else x :: removeFirst xs c

/-- The `for endpoint in self._endpoints` loop of `_reinitialize_endpoints`
(lines 84–90).  `orig` is the pool snapshot the index was built from; `built`
is the local `connections` list; `remaining` is the live pool as successive
`detach` calls remove reused connections.  A non-`Endpoint` entry cannot be
used as a dictionary key (a mapping is unhashable), raising `TypeError`; the
error value carries the pool state at the raise. -/
def reinitLoopE (orig : List Connection) :
    List EndpointSpec → List Connection → List Connection → Nat →
    Except (List Connection) (List Connection × List Connection × Nat)
  | [], built, remaining, nid => .ok (built, remaining, nid)
  | .ep e :: es, built, remaining, nid =>
    match oldLookup orig e with
    | some c => reinitLoopE orig es (built ++ [c]) (removeFirst remaining c) nid
    | none => reinitLoopE orig es (built ++ [Connection.mk nid e]) remaining (nid + 1)
  | _ :: _, _, remaining, _ => .error remaining

/-- `_reinitialize_endpoints` (lines 81–93): index the old pool, reuse or
create connections, close the old pool (releasing the non-detached
connections), shuffle, and install the new pool.  `shuffle` stands for
`random.shuffle`; every instantiation must permute its input. -/
def reinitializeEndpoints (shuffle : List Connection → List Connection)
    (st : TransportState) : TransportState × Except PyError Unit :=
  match reinitLoopE st.pool st.endpointsField [] st.pool st.nextId with
  | .error remaining => ({ st with pool := remaining }, .error .typeError)
  | .ok (built, remaining, nid) =>
    ({ st with pool := shuffle built, nextId := nid,
               closed := st.closed ++ remaining }, .ok ())

/-- The `endpoints` property setter (lines 60–63): it stores the assigned list
exactly as given — without `_convert_endpoints` — and reinitializes the pool. -/
def setEndpoints (shuffle : List Connection → List Connection)
    (st : TransportState) (es : List EndpointSpec) :
    TransportState × Except PyError Unit :=
  reinitializeEndpoints shuffle { st with endpointsField := es }

/-- `Transport.__init__` (lines 31–42).  Note line 39:
`self._sniffer_timeout = sniff_timeout` — the `sniffer_timeout` parameter is
accepted but never read, and the sniff-interval field receives the
sniff-request timeout instead.  `_sniff_on_connection_fail` is never assigned. -/
def initTransport (shuffle : List Connection → List Connection)
    (specs : List EndpointSpec) (sniffer_timeout : Option ℚ) (sniff_timeout : ℚ)
    (max_retries : Nat) (now : ℚ) : Except PyError TransportState :=
  match convertEndpoints specs with
  | .error e => .error e
  | .ok eps =>
    let st0 : TransportState :=
      { endpointsField := eps.map .ep
        pool := []
        seedConnections := []
        snifferTimeout := some sniff_timeout
        sniffTimeout := sniff_timeout
        lastSniff := now
        maxRetries := max_retries
        sniffOnConnectionFail := none
        nextId := 0
        closed := []
        events := [] }
    match reinitializeEndpoints shuffle st0 with
    | (st1, .ok _) => .ok { st1 with seedConnections := st1.pool }
    | (_, .error e) => .error e

/-! ### The environment: collaborator behaviour -/

/-- Outcome of the sniff request on one connection (lines 127–130): a
`ConnectionError`, a response `json.loads` rejects (`TypeError`/`ValueError`),
or a parsed node list (the `nodes` mapping values, in order). -/
inductive SniffResp where
  | connError
  | malformed
  | ok (nodes : List Node)
deriving DecidableEq, Repr

/-- Outcome of one main-request attempt in the retry loop (lines 213–220): a
`ConnectionError` with its message, or a `(status, data)` success.  Body
serialization and response decoding belong to the wire-encoding collaborator
and stay abstract. -/
inductive AttemptRes where
  | fail (msg : String)
  | ok (status : Nat) (data : String)
deriving DecidableEq, Repr

/-- The external collaborators: per-connection sniff responses, the pool's
`get_connection` selection, and the per-attempt outcome of the main request. -/
structure Env where
  resp : Connection → SniffResp
  select : List Connection → Except PyError Connection
  attempt : Nat → AttemptRes

/-! ### Sniffing -/

/-- The candidate loop of `sniff_endpoints` (lines 122–133): the first
connection whose response parses wins; `ConnectionError`, `TypeError` and
`ValueError` are swallowed and the loop continues. -/
def sniffCandidates (resp : Connection → SniffResp) :
    List Connection → Option (Connection × List Node)
  | [] => none
  | c :: cs =>
    match resp c with
    | .ok nodes => some (c, nodes)
    | _ => sniffCandidates resp cs

/-- `sniff_endpoints` (lines 107–167).  The `try` block optimistically sets
`_last_sniff = now` and restores the previous value if the candidate loop
fails; the "no viable endpoints" raise on line 162 sits outside that `try`,
so it leaves the new `_last_sniff` in place. -/
def sniffEndpoints (shuffle : List Connection → List Connection) (env : Env)
    (now : ℚ) (st : TransportState) : TransportState × Except PyError Unit :=
  let previous := st.lastSniff
  let st1 := { st with lastSniff := now, events := st.events ++ [Event.sniffAttempt] }
  match sniffCandidates env.resp (st1.pool ++ st1.seedConnections) with
  | none =>
    ({ st1 with lastSniff := previous },
     .error (.transportError "N/A" "Unable to sniff endpoints."))
  | some (_, nodes) =>
    let endpoints := parseNodes nodes
    if endpoints.isEmpty then
      (st1, .error (.transportError "N/A"
        "Unable to sniff endpoints - no viable endpoints found."))
    else
      setEndpoints shuffle st1 (endpoints.map .ep)

/-- The time-based sniff test of lines 101–102, as Python evaluates it:
`self._sniffer_timeout` is truthy (non-zero) and
`time.monotonic() >= self._last_sniff + self._sniffer_timeout`.
`Rat.blt now x = false` is, definitionally, `x ≤ now`. -/
def sniffDue (t lastSniff now : ℚ) : Bool :=
  (t != 0) && !(Rat.blt now (lastSniff + t))

/-- The Boolean sniff test agrees with the order-theoretic statement. -/
theorem sniffDue_iff (t lastSniff now : ℚ) :
    sniffDue t lastSniff now = true ↔ t ≠ 0 ∧ now ≥ lastSniff + t := by
  unfold sniffDue
  rw [Bool.and_eq_true, Bool.not_eq_true', bne_iff_ne]
  exact and_congr Iff.rfl Iff.rfl

/-- `get_connection` (lines 95–105): if `self._sniffer_timeout` is truthy and
`now >= self._last_sniff + self._sniffer_timeout`, sniff first; then delegate
to the pool's selection. -/
def getConnection (shuffle : List Connection → List Connection) (env : Env)
    (now : ℚ) (st : TransportState) : TransportState × Except PyError Connection :=
  match st.snifferTimeout with
  | some t =>
    if sniffDue t st.lastSniff now then
      match sniffEndpoints shuffle env now st with
      | (st1, .ok _) => (st1, env.select st1.pool)
      | (st1, .error e) => (st1, .error e)
    else (st, env.select st.pool)
  | none => (st, env.select st.pool)

/-- `mark_dead` (lines 169–182): `self._pool.mark_dead(connection)` first,
then `if self._sniff_on_connection_fail: sniff_endpoints()`.  Reading the
never-assigned attribute raises `AttributeError`. -/
def markDead (shuffle : List Connection → List Connection) (env : Env)
    (now : ℚ) (st : TransportState) (c : Connection) :
    TransportState × Except PyError Unit :=
  let st1 := { st with events := st.events ++ [Event.poolMarkDead c] }
  match st1.sniffOnConnectionFail with
  | none => (st1, .error (.attributeError "_sniff_on_connection_fail"))
  | some b => if b then sniffEndpoints shuffle env now st1 else (st1, .ok ())

/-! ### Request execution with retry -/

/-- Either the loop body's final outcome for this call, or a decision to retry
after a `ConnectionError` whose message is kept for a possible re-raise. -/
inductive AttemptOutcome where
  | done (r : Except PyError (Nat × String))
  | retry (msg : String)

/-- One iteration of the `for attempt in range(self.max_retries + 1)` body
(lines 209–232): acquire a connection, run the request; on `ConnectionError`
mark the connection dead and re-raise if this was the last allowed attempt; on
success mark the connection live and return `(status, data)`. -/
def performAttempt (shuffle : List Connection → List Connection) (env : Env)
    (now : ℚ) (attempt : Nat) (st : TransportState) :
    TransportState × AttemptOutcome :=
  match getConnection shuffle env now st with
  | (st1, .error e) => (st1, .done (.error e))
  | (st1, .ok c) =>
    let st2 := { st1 with events := st1.events ++ [Event.connAttempt attempt] }
    match env.attempt attempt with
    | .fail msg =>
      match markDead shuffle env now st2 c with
      | (st3, .error e) => (st3, .done (.error e))
      | (st3, .ok _) =>
        if attempt = st3.maxRetries then (st3, .done (.error (.connectionError msg)))
        else (st3, .retry msg)
    | .ok status data =>
      ({ st2 with events := st2.events ++ [Event.poolMarkLive c] },
       .done (.ok (status, data)))

/-- The retry loop.  `fuel` bounds the remaining iterations; `performRequest`
supplies `maxRetries`, so fuel runs out exactly at `attempt = maxRetries`,
where the body's last-retry branch already returned — the `retry`-at-zero arm
is unreachable from `performRequest`. -/
def performLoop (shuffle : List Connection → List Connection) (env : Env)
    (now : ℚ) : Nat → Nat → TransportState →
    TransportState × Except PyError (Nat × String)
  | 0, attempt, st =>
    match performAttempt shuffle env now attempt st with
    | (st1, .done r) => (st1, r)
    | (st1, .retry msg) => (st1, .error (.connectionError msg))
  | f + 1, attempt, st =>
    match performAttempt shuffle env now attempt st with
    | (st1, .done r) => (st1, r)
    | (st1, .retry _) => performLoop shuffle env now f (attempt + 1) st1

/-- `perform_request` (lines 184–232): run the retry loop with attempts
numbered `0 .. maxRetries`, i.e. `range(self.max_retries + 1)`. -/
def performRequest (shuffle : List Connection → List Connection) (env : Env)
    (now : ℚ) (st : TransportState) :
    TransportState × Except PyError (Nat × String) :=
  performLoop shuffle env now st.maxRetries 0 st

/-- Number of request attempts recorded in an event trace. -/
def countAttempts (evs : List Event) : Nat :=
  (evs.filter fun e =>
    match e with
    | .connAttempt _ => true
    | _ => false).length

/-! ### Concrete fixtures used by the claim theorems -/

/-- The default `sniff_timeout=0.1` of the constructor signature (line 32). -/
def sniffTimeoutDefault : ℚ :=
  1/10

/-- The seed endpoint used by the concrete runs. -/
def epSeed : Endpoint :=
  Endpoint.mk "10.0.0.1" 9200

/-- The seed connection the constructor builds for `epSeed`. -/
def connSeed : Connection :=
  Connection.mk 0 epSeed

/-- The state `Transport([Endpoint('10.0.0.1', 9200)])` is constructed in, with
`sniffer_timeout=None`, the default `sniff_timeout=0.1`, `max_retries=3`, and
construction time 5. -/
def baseState : TransportState :=
  { endpointsField := [.ep epSeed]
    pool := [connSeed]
    seedConnections := [connSeed]
    snifferTimeout := some sniffTimeoutDefault
    sniffTimeout := sniffTimeoutDefault
    lastSniff := 5
    maxRetries := 3
    sniffOnConnectionFail := none
    nextId := 1
    closed := []
    events := [] }

/-- A dedicated-master node: `data=false`, `client=false`, `master=true`. -/
def nodeMasterOnly : Node :=
  { http_address := some "es1/10.0.0.2:9300]"
    attributes := [ ( "data", "false" ), ( "client", "false" ), ( "master", "true" ) ] }

/-- A data node (role A in the spec's example). -/
def nodeA : Node :=
  { http_address := some "inet[/10.0.0.3:9201]"
    attributes := [ ( "data", "true" ) ] }

/-- An environment in which every connection fails its sniff request and every
main-request attempt raises a `ConnectionError`; the pool always selects its
first connection. -/
def envFail : Env :=
  { resp := fun _ => .connError
    select := fun l =>
      match l with
      | c :: _ => .ok c
      | [] => .error (.connectionError "no connections")
    attempt := fun _ => .fail "boom" }

/-- An environment whose sniff response contains only a dedicated-master node. -/
def envMasterOnly : Env :=
  { envFail with resp := fun _ => .ok [nodeMasterOnly] }

/-- The constructor run that produces `baseState`: seed endpoint list
`[Endpoint('10.0.0.1', 9200)]`, `sniffer_timeout=None`, `sniff_timeout=0.1`,
`max_retries=3`, at monotonic time 5. -/
theorem baseState_init :
    initTransport id [ .ep epSeed ] none (1/10) 3 5 = .ok baseState := by
  rfl

/-- At time 6 the (buggy, 0.1-valued) sniff interval has expired: 6 ≥ 5 + 0.1. -/
theorem sniffDue_true_6 : sniffDue sniffTimeoutDefault 5 6 = true := by
  rw [sniffDue_iff]
  unfold sniffTimeoutDefault
  norm_num

/-- At time 5 the interval has not expired: 5 < 5 + 0.1. -/
theorem sniffDue_false_5 : sniffDue sniffTimeoutDefault 5 5 = false := by
  rw [Bool.eq_false_iff, ne_eq, sniffDue_iff]
  unfold sniffTimeoutDefault
  rintro ⟨-, h⟩
  norm_num at h

/-- Claim C1, counterexample: a sniff whose candidate succeeds but whose
parsing/filtering leaves zero viable endpoints fails with the discovery error
yet leaves `lastSniff` at the new attempt time 9 instead of restoring the
prior value 5 (the `raise` on line 162 of transport.py sits outside the
`try` block that restores `_last_sniff`); the previous endpoints and pool do
remain in effect. -/
theorem sniffNoViableKeepsNewLastSniff :
    (sniffEndpoints id envMasterOnly 9 baseState).2 =
      .error (.transportError "N/A"
        "Unable to sniff endpoints - no viable endpoints found.") ∧
    (sniffEndpoints id envMasterOnly 9 baseState).1.lastSniff = 9 ∧
    baseState.lastSniff = 5 ∧
    (sniffEndpoints id envMasterOnly 9 baseState).1.endpointsField =
      baseState.endpointsField ∧
    (sniffEndpoints id envMasterOnly 9 baseState).1.pool = baseState.pool := by
  exact ⟨rfl, rfl, rfl, rfl, rfl⟩

/-- Claim C1, amended: when the candidate loop produces no parseable response,
the failed sniff restores `lastSniff` exactly and leaves the previous
endpoints/pool in effect; when a candidate succeeds but parsing/filtering
leaves zero viable endpoints, the previous endpoints/pool likewise remain in
effect but `lastSniff` keeps the new attempt time. -/
theorem sniffFailureStateAmended (shuffle : List Connection → List Connection)
    (env : Env) (now : ℚ) (st : TransportState)
    (h : sniffCandidates env.resp (st.pool ++ st.seedConnections) = none ∨
         ∃ c nodes,
           sniffCandidates env.resp (st.pool ++ st.seedConnections) = some (c, nodes) ∧
           parseNodes nodes = []) :
    (sniffEndpoints shuffle env now st).2 ≠ .ok () ∧
    (sniffEndpoints shuffle env now st).1.endpointsField = st.endpointsField ∧
    (sniffEndpoints shuffle env now st).1.pool = st.pool ∧
    (sniffEndpoints shuffle env now st).1.lastSniff =
      (if sniffCandidates env.resp (st.pool ++ st.seedConnections) = none
       then st.lastSniff else now) := by
  rcases h with h | ⟨c, nodes, h, hp⟩
  · simp [sniffEndpoints, h]
  · simp [sniffEndpoints, h, hp]

/-- Witness for the amended C1 statement: the all-connections-fail environment
on the concrete base state hits the restoring branch. -/
theorem sniffFailureStateAmendedWitness :
    sniffCandidates envFail.resp (baseState.pool ++ baseState.seedConnections) = none ∧
    ((sniffEndpoints id envFail 9 baseState).2 ≠ .ok () ∧
     (sniffEndpoints id envFail 9 baseState).1.endpointsField = baseState.endpointsField ∧
     (sniffEndpoints id envFail 9 baseState).1.pool = baseState.pool ∧
     (sniffEndpoints id envFail 9 baseState).1.lastSniff =
       (if sniffCandidates envFail.resp (baseState.pool ++ baseState.seedConnections) = none
        then baseState.lastSniff else 9)) :=
  ⟨rfl, sniffFailureStateAmended id envFail 9 baseState (Or.inl rfl)⟩

/-- The reinit loop never raises on a list of genuine `Endpoint` entries. -/
theorem reinitLoopE_map_ep_ok (orig : List Connection) (eps : List Endpoint) :
    ∀ built remaining nid, ∃ out,
      reinitLoopE orig (eps.map .ep) built remaining nid = .ok out := by
  induction eps with
  | nil => exact fun b r n => ⟨(b, r, n), rfl⟩
  | cons e es ih =>
    intro b r n
    rw [List.map_cons]
    cases h : oldLookup orig e with
    | some c =>
      simp only [reinitLoopE, h]
      exact ih (b ++ [c]) (removeFirst r c) n
    | none =>
      simp only [reinitLoopE, h]
      exact ih (b ++ [Connection.mk n e]) r (n + 1)

/-- Claim C4, amended: conversion to canonical `Endpoint` values (with default
port 9200 for a mapping without a `port` key, and a configuration error for an
entry that is neither an `Endpoint` nor a mapping) happens only in the
constructor, after which `transport.endpoints` returns exactly the
canonicalized list; the `endpoints` setter stores the assigned list verbatim,
without conversion, and reinitializes the pool. -/
theorem endpointsCanonicalAmended
    (shuffle : List Connection → List Connection)
    (specs : List EndpointSpec) (eps : List Endpoint)
    (sto : Option ℚ) (sni : ℚ) (mr : Nat) (now : ℚ)
    (h : convertEndpoints specs = .ok eps) :
    (∃ st, initTransport shuffle specs sto sni mr now = .ok st ∧
       getEndpoints st = eps.map .ep) ∧
    (∀ st es, (setEndpoints shuffle st es).1.endpointsField = es) ∧
    (∀ hst p rest, convertEndpoints (.dict (some hst) p :: rest) =
       (convertEndpoints rest).map (fun r => Endpoint.mk hst (p.getD 9200) :: r)) ∧
    (∀ rest, convertEndpoints (.other :: rest) = .error (.runtimeError "Bad endpoint")) := by
  refine ⟨?_, ?_, ?_, ?_⟩
  · obtain ⟨⟨built, remaining, nid⟩, hout⟩ :=
      reinitLoopE_map_ep_ok ([] : List Connection) eps [] [] 0
    simp only [initTransport, h, reinitializeEndpoints, hout, getEndpoints]
    exact ⟨_, rfl, rfl⟩
  · intro st es
    unfold setEndpoints reinitializeEndpoints
    cases hr : reinitLoopE st.pool es [] st.pool st.nextId with
    | error rem => simp
    | ok out =>
      obtain ⟨b, r, n⟩ := out
      simp
  · intro hst p rest
    cases hr : convertEndpoints rest with
    | ok r => simp [convertEndpoints, hr, Except.map]
    | error e => simp [convertEndpoints, hr, Except.map]
  · intro rest
    rfl

/-- Witness for the amended C4 statement, at the one-mapping spec list
`[{'host': 'w'}]`. -/
theorem endpointsCanonicalAmendedWitness :
    convertEndpoints [ .dict (some "w") none ] = .ok [ Endpoint.mk "w" 9200 ] ∧
    ((∃ st, initTransport id [ .dict (some "w") none ] none 0 0 0 = .ok st ∧
        getEndpoints st = [Endpoint.mk "w" 9200].map .ep) ∧
     (∀ st es, (setEndpoints id st es).1.endpointsField = es) ∧
     (∀ hst p rest, convertEndpoints (.dict (some hst) p :: rest) =
        (convertEndpoints rest).map (fun r => Endpoint.mk hst (p.getD 9200) :: r)) ∧
     (∀ rest, convertEndpoints (.other :: rest) = .error (.runtimeError "Bad endpoint"))) :=
  ⟨rfl, endpointsCanonicalAmended id [ .dict (some "w") none ] [ Endpoint.mk "w" 9200 ]
    none 0 0 0 rfl⟩

/-- Claim C2, code bug: on a transport fresh out of `__init__`, a request whose
every attempt raises `ConnectionError` does not make `maxRetries + 1 = 4`
attempts ending in that `ConnectionError`; the first attempt's `mark_dead`
call reads the never-assigned `_sniff_on_connection_fail` attribute, so the
call fails with `AttributeError` after exactly one attempt. -/
theorem performRequestStopsWithAttributeError :
    initTransport id [ .ep epSeed ] none (1/10) 3 5 = .ok baseState ∧
    baseState.maxRetries = 3 ∧
    (performRequest id envFail 5 baseState).2 =
      .error (.attributeError "_sniff_on_connection_fail") ∧
    countAttempts (performRequest id envFail 5 baseState).1.events = 1 := by
  refine ⟨rfl, rfl, ?_, ?_⟩ <;>
    simp [performRequest, performLoop, performAttempt, getConnection, markDead,
          baseState, envFail, sniffDue_false_5, countAttempts, connSeed, epSeed]

/-- Claim C3, code bug: the transport was constructed with
`sniffer_timeout=None` (the sniff-interval option unset), yet
`_sniffer_timeout` holds `0.1` — line 39 assigns `sniff_timeout` to it — so
`get_connection` at time 6 ≥ 5 + 0.1 does run a time-based sniff. -/
theorem getConnectionSniffsDespiteUnsetInterval :
    initTransport id [ .ep epSeed ] none (1/10) 3 5 = .ok baseState ∧
    baseState.snifferTimeout = some (1/10) ∧
    (getConnection id envFail 6 baseState).1.events = [Event.sniffAttempt] := by
  refine ⟨rfl, rfl, ?_⟩
  simp [getConnection, baseState, sniffDue_true_6, sniffEndpoints, sniffCandidates,
        envFail, connSeed, epSeed]

/-- Claim C4, counterexample: assigning `[{'host': 'h'}]` — a valid host
mapping — through the `endpoints` setter stores the raw mapping (not its
canonical `Endpoint('h', 9200)` conversion, which `_convert_endpoints` would
produce) and raises `TypeError` from the pool rebuild rather than converting
or rejecting with the configuration error. -/
theorem setterStoresRawSpec :
    (setEndpoints id baseState [ .dict (some "h") none ]).1.endpointsField =
      [ .dict (some "h") none ] ∧
    convertEndpoints [ .dict (some "h") none ] = .ok [ Endpoint.mk "h" 9200 ] ∧
    (( [ EndpointSpec.dict (some "h") none ] : List EndpointSpec) ==
      [ EndpointSpec.ep (Endpoint.mk "h" 9200) ]) = false ∧
    (setEndpoints id baseState [ .dict (some "h") none ]).2 = .error .typeError := by
  exact ⟨rfl, rfl, rfl, rfl⟩

/-- The exclusion condition as the specification words it: the node's `data`
attribute is `"false"` (missing means `"true"`, hence not excluded on this
count), its `client` attribute is `"false"` or missing (the default is
`"false"`), and its `master` attribute is `"true"` or missing (the default is
`"true"`). -/
def specExcluded (attrs : List (String × String)) : Prop :=
  attrs.lookup "data" = some "false" ∧
  (attrs.lookup "client" = some "false" ∨ attrs.lookup "client" = none) ∧
  (attrs.lookup "master" = some "true" ∨ attrs.lookup "master" = none)

/-- The Boolean test of lines 155–157 agrees with the spec-side exclusion
condition. -/
theorem nodeExcludedIff (attrs : List (String × String)) :
    (getAttr attrs "data" "true" == "false" &&
     getAttr attrs "client" "false" == "false" &&
     getAttr attrs "master" "true" == "true") = true ↔ specExcluded attrs := by
  unfold specExcluded getAttr
  cases attrs.lookup "data" <;> cases attrs.lookup "client" <;>
    cases attrs.lookup "master" <;> simp [and_assoc]

/-- Claim C6: a parsed node is excluded from the endpoint list iff its
attributes satisfy `data == "false"`, `client == "false"` and
`master == "true"` with the defaults `data=true, client=false, master=true`
for missing attributes; and the spec's two-node example yields exactly the
data node's endpoint. -/
theorem sniffFilterIffDedicatedMaster :
    (∀ (n : Node) (ns : List Node) (m : AddrMatch),
       addressSearch (n.http_address.getD "") = some m →
       (parseNodes (n :: ns) = parseNodes ns ↔ specExcluded n.attributes)) ∧
    parseNodes [ nodeA, nodeMasterOnly ] = [ Endpoint.mk "10.0.0.3" 9201 ] := by
  constructor
  · intro n ns m hm
    rw [show parseNodes (n :: ns) =
          (match addressSearch (n.http_address.getD "") with
           | none => parseNodes ns
           | some m =>
             if !(getAttr n.attributes "data" "true" == "false" &&
                  getAttr n.attributes "client" "false" == "false" &&
                  getAttr n.attributes "master" "true" == "true") then
               Endpoint.mk (hostOfMatch m) (portOfMatch m) :: parseNodes ns
             else
               parseNodes ns) from rfl, hm]
    cases hb : (getAttr n.attributes "data" "true" == "false" &&
                getAttr n.attributes "client" "false" == "false" &&
                getAttr n.attributes "master" "true" == "true") with
    | true =>
      simp only [Bool.not_true, Bool.false_eq_true, if_false]
      exact iff_of_true (by trivial) ((nodeExcludedIff n.attributes).mp hb)
    | false =>
      simp only [Bool.not_false, if_true]
      refine iff_of_false (List.cons_ne_self _ _) fun hs => ?_
      rw [← nodeExcludedIff n.attributes] at hs
      rw [hs] at hb
      simp at hb
  · rfl

/-- Witness for C6's conditional part, at the dedicated-master node. -/
theorem sniffFilterIffDedicatedMasterWitness :
    addressSearch (nodeMasterOnly.http_address.getD "") =
      some (AddrMatch.mk "10.0.0.2" "9300") ∧
    (parseNodes [nodeMasterOnly] = parseNodes [] ↔ specExcluded nodeMasterOnly.attributes) :=
  ⟨rfl, sniffFilterIffDedicatedMaster.1 nodeMasterOnly []
    (AddrMatch.mk "10.0.0.2" "9300") rfl⟩

/-- Claim C5, code bug: on a transport fresh out of `__init__`, `mark_dead`
does complete the pool's mark-dead call first, but then raises
`AttributeError` reading the never-assigned `_sniff_on_connection_fail`
attribute instead of deciding whether to sniff. -/
theorem markDeadRaisesAttributeError :
    initTransport id [ .ep epSeed ] none (1/10) 3 5 = .ok baseState ∧
    baseState.sniffOnConnectionFail = none ∧
    (markDead id envFail 5 baseState connSeed).1.events =
      [Event.poolMarkDead connSeed] ∧
    (markDead id envFail 5 baseState connSeed).2 =
      .error (.attributeError "_sniff_on_connection_fail") := by
  exact ⟨rfl, rfl, rfl, rfl⟩

/-- A second connection and a third, for multi-candidate witnesses. -/
def connB : Connection :=
  Connection.mk 1 (Endpoint.mk "10.0.0.4" 9200)

/-- A third connection. -/
def connC : Connection :=
  Connection.mk 2 (Endpoint.mk "10.0.0.5" 9200)

/-- A sniff-response function for the C8 witness: the first candidate raises a
`ConnectionError`, the second returns an unparseable body, the third succeeds. -/
def respMixed (c : Connection) : SniffResp :=
  if c.id = 0 then .connError
  else if c.id = 1 then .malformed
  else .ok [nodeA]

/-- Claim C8: candidate iteration runs over the pool's connections followed by
the seed connections, stops at the first connection whose response parses,
treats connection failures and malformed responses alike as non-fatal, and
raises the discovery error exactly when no candidate succeeds. -/
theorem sniffCandidateIteration :
    (∀ (resp : Connection → SniffResp) (pre post : List Connection)
       (c : Connection) (nodes : List Node),
       (∀ c' ∈ pre, ∀ ns, resp c' ≠ .ok ns) → resp c = .ok nodes →
       sniffCandidates resp (pre ++ c :: post) = some (c, nodes)) ∧
    (∀ (resp : Connection → SniffResp) (l : List Connection),
       sniffCandidates resp l = none ↔ ∀ c ∈ l, ∀ ns, resp c ≠ .ok ns) ∧
    (∀ (shuffle : List Connection → List Connection) (env : Env) (now : ℚ)
       (st : TransportState),
       sniffCandidates env.resp (st.pool ++ st.seedConnections) = none →
       (sniffEndpoints shuffle env now st).2 =
         .error (.transportError "N/A" "Unable to sniff endpoints.")) := by
  refine ⟨?_, ?_, ?_⟩
  · intro resp pre post c nodes hpre hc
    induction pre with
    | nil => simp [sniffCandidates, hc]
    | cons p pre' ih =>
      have hp := hpre p (by simp)
      cases hr : resp p with
      | ok ns => exact absurd hr (hp ns)
      | connError =>
        simp only [List.cons_append, sniffCandidates, hr]
        exact ih fun c' hc' => hpre c' (List.mem_cons_of_mem _ hc')
      | malformed =>
        simp only [List.cons_append, sniffCandidates, hr]
        exact ih fun c' hc' => hpre c' (List.mem_cons_of_mem _ hc')
  · intro resp l
    induction l with
    | nil => simp [sniffCandidates]
    | cons c cs ih =>
      cases hr : resp c with
      | ok ns => simp [sniffCandidates, hr]
      | connError =>
        simp only [sniffCandidates, hr, ih]
        constructor
        · intro h c' hc'
          rcases List.mem_cons.mp hc' with rfl | hc'
          · intro ns h2
            rw [h2] at hr
            cases hr
          · exact h c' hc'
        · intro h c' hc'
          exact h c' (List.mem_cons_of_mem _ hc')
      | malformed =>
        simp only [sniffCandidates, hr, ih]
        constructor
        · intro h c' hc'
          rcases List.mem_cons.mp hc' with rfl | hc'
          · intro ns h2
            rw [h2] at hr
            cases hr
          · exact h c' hc'
        · intro h c' hc'
          exact h c' (List.mem_cons_of_mem _ hc')
  · intro shuffle env now st h
    simp [sniffEndpoints, h]

/-- Witness for C8: with a failing, a malformed and a succeeding candidate in
that order, iteration skips both failure kinds and stops at the third. -/
theorem sniffCandidateIterationWitness :
    (∀ c' ∈ [connSeed, connB], ∀ ns, respMixed c' ≠ .ok ns) ∧
    respMixed connC = .ok [nodeA] ∧
    sniffCandidates respMixed ([connSeed, connB] ++ connC :: []) =
      some (connC, [nodeA]) := by
  have h1 : ∀ c' ∈ [connSeed, connB], ∀ ns, respMixed c' ≠ .ok ns := by
    intro c' hc' ns
    rcases List.mem_cons.mp hc' with rfl | hc'
    · simp [respMixed, connSeed]
    · rcases List.mem_cons.mp hc' with rfl | hc'
      · simp [respMixed, connB]
      · cases hc'
  exact ⟨h1, rfl, sniffCandidateIteration.1 respMixed [connSeed, connB] [] connC [nodeA] h1 rfl⟩

/-! ### Soundness of the address-regex model (C9) -/

/-- Elements of `l.take j` satisfy `q` when `j` stays within the maximal
`q`-prefix. -/
theorem take_le_takeWhile_all (q : Char → Bool) (r : List Char) (j : Nat)
    (hj : j ≤ (r.takeWhile q).length) : ∀ c ∈ r.take j, q c = true := by
  intro c hc
  have h1 : r.take j = (r.takeWhile q).take j := by
    conv_lhs => rw [← List.takeWhile_append_dropWhile (p := q) (l := r)]
    rw [List.take_append_of_le_length hj]
  rw [h1] at hc
  exact List.mem_takeWhile_imp (List.mem_of_mem_take hc)

/-- What a successful port backtrack means: the port is a nonempty prefix of
the remaining text, followed by nothing or a lone closing bracket. -/
theorem findPortFrom_sound (r : List Char) :
    ∀ (k : Nat) (p : List Char), findPortFrom r k = some p →
      ∃ j, 1 ≤ j ∧ j ≤ k ∧ p = r.take j ∧ (r.drop j = [] ∨ r.drop j = [']']) := by
  intro k
  induction k with
  | zero =>
    intro p h
    cases h
  | succ k ih =>
    intro p h
    rw [findPortFrom] at h
    split at h
    · rename_i hcond
      injection h with h'
      refine ⟨k + 1, Nat.succ_le_succ (Nat.zero_le _), Nat.le_refl _, h'.symm, ?_⟩
      simpa using hcond
    · obtain ⟨j, h1, h2, h3, h4⟩ := ih p h
      exact ⟨j, h1, Nat.le_trans h2 (Nat.le_succ _), h3, h4⟩

/-- What a successful `tailMatch` means: a leading colon, then a port match. -/
theorem tailMatch_sound (rest p : List Char) (h : tailMatch rest = some p) :
    ∃ r, rest = ':' :: r ∧ findPort r = some p := by
  unfold tailMatch at h
  split at h
  · rename_i r
    exact ⟨r, rfl, h⟩
  · cases h

/-- What a successful host backtrack means: the host is some prefix within the
maximal host-character run, and the rest tail-matches. -/
theorem hostBacktrack_sound (cs : List Char) :
    ∀ (k : Nat) (hp : List Char × List Char), hostBacktrack cs k = some hp →
      ∃ j, j ≤ k ∧ hp.1 = cs.take j ∧ tailMatch (cs.drop j) = some hp.2 := by
  intro k
  induction k with
  | zero =>
    intro hp h
    rw [hostBacktrack] at h
    split at h
    · rename_i p hteq
      injection h with h'
      refine ⟨0, Nat.le_refl _, ?_, ?_⟩
      · rw [← h']
        simp
      · rw [← h']
        simpa using hteq
    · cases h
  | succ k ih =>
    intro hp h
    rw [hostBacktrack] at h
    split at h
    · rename_i p hteq
      injection h with h'
      refine ⟨k + 1, Nat.le_refl _, ?_, ?_⟩
      · rw [← h']
      · rw [← h']
        simpa using hteq
    · obtain ⟨j, h1, h2, h3⟩ := ih hp h
      exact ⟨j, Nat.le_trans h1 (Nat.le_succ _), h2, h3⟩

/-- What a successful `searchFrom` means: some prefix, then a slash, then a
suffix on which the after-slash pattern matches. -/
theorem searchFrom_sound :
    ∀ (cs : List Char) (hp : List Char × List Char), searchFrom cs = some hp →
      ∃ pre suffix, cs = pre ++ '/' :: suffix ∧ matchAfterSlash suffix = some hp := by
  intro cs
  induction cs with
  | nil =>
    intro hp h
    cases h
  | cons c rest ih =>
    intro hp h
    rw [searchFrom] at h
    split at h
    · rename_i hc
      split at h
      · rename_i m hm
        injection h with h'
        refine ⟨[], rest, ?_, by rw [hm, h']⟩
        rw [hc]
        rfl
      · obtain ⟨pre, suffix, h1, h2⟩ := ih hp h
        exact ⟨c :: pre, suffix, by rw [h1, List.cons_append], h2⟩
    · obtain ⟨pre, suffix, h1, h2⟩ := ih hp h
      exact ⟨c :: pre, suffix, by rw [h1, List.cons_append], h2⟩

/-- Soundness of the `ADDRESS_RE.search` model: a match decomposes the string
as `pre ++ "/" ++ host ++ ":" ++ port ++ opt` with `opt` empty or `"]"`, a
nonempty all-digit port and an all-host-character host — i.e. a string
without a `/host:port` or `/host:port]` suffix cannot match. -/
theorem addressSearch_sound (s : String) (m : AddrMatch)
    (h : addressSearch s = some m) :
    ∃ (pre opt : List Char),
      (opt = [] ∨ opt = [']']) ∧
      s.toList = pre ++ '/' :: (m.host.toList ++ ':' :: (m.port.toList ++ opt)) ∧
      m.port.toList ≠ [] ∧
      (∀ c ∈ m.port.toList, isDigitChar c = true) ∧
      (∀ c ∈ m.host.toList, isHostChar c = true) := by
  unfold addressSearch at h
  split at h
  case h_2 => cases h
  case h_1 hh pp hs =>
    injection h with h'
    obtain ⟨pre, suffix, h1, h2⟩ := searchFrom_sound s.toList (hh, pp) hs
    unfold matchAfterSlash at h2
    obtain ⟨j, hj, hjh, ht⟩ := hostBacktrack_sound suffix _ (hh, pp) h2
    obtain ⟨r, hr, hf⟩ := tailMatch_sound _ _ ht
    unfold findPort at hf
    obtain ⟨i, hi1, hi2, hip, hopt⟩ := findPortFrom_sound r _ _ hf
    have hhost : m.host.toList = suffix.take j := by
      rw [← h']
      simpa using hjh
    have hport : m.port.toList = r.take i := by
      rw [← h']
      simpa using hip
    refine ⟨pre, r.drop i, hopt, ?_, ?_, ?_, ?_⟩
    · rw [h1, hhost, hport]
      have hsplit : suffix = suffix.take j ++ suffix.drop j :=
        (List.take_append_drop j suffix).symm
      have hrsplit : r = r.take i ++ r.drop i :=
        (List.take_append_drop i r).symm
      rw [show suffix.take j ++ ':' :: (r.take i ++ r.drop i) =
            suffix.take j ++ (':' :: r) from by rw [← hrsplit],
          ← hr, ← hsplit]
    · rw [hport]
      intro hnil
      rcases List.take_eq_nil_iff.mp hnil with h0 | hre
      · rw [h0] at hi1
        cases hi1
      · rw [hre] at hi2
        simp at hi2
        rw [hi2] at hi1
        cases hi1
    · rw [hport]
      exact take_le_takeWhile_all isDigitChar r i hi2
    · rw [hhost]
      exact take_le_takeWhile_all isHostChar suffix j hj

/-! ### Pool reinitialization preserves connection identity (C7) -/

/-- Closed form of the `connections` list the reinit loop builds: reuse the
indexed old connection where the endpoint has one, else a fresh connection
numbered consecutively from `nid`. -/
def buildList (orig : List Connection) : List Endpoint → Nat → List Connection
  | [], _ => []
  | e :: es, nid =>
    match oldLookup orig e with
    | some c => c :: buildList orig es nid
    | none => Connection.mk nid e :: buildList orig es (nid + 1)

/-- The fresh-id counter after the reinit loop. -/
def nidAfter (orig : List Connection) : List Endpoint → Nat → Nat
  | [], nid => nid
  | e :: es, nid =>
    match oldLookup orig e with
    | some _ => nidAfter orig es nid
    | none => nidAfter orig es (nid + 1)

/-- `detach` yields a sublist of the pool. -/
theorem removeFirst_sublist (l : List Connection) (c : Connection) :
    List.Sublist (removeFirst l c) l := by
  induction l with
  | nil => exact List.Sublist.refl _
  | cons x xs ih =>
    by_cases h : x = c
    · rw [show removeFirst (x :: xs) c = xs from by simp [removeFirst, h]]
      exact List.sublist_cons_self x xs
    · rw [show removeFirst (x :: xs) c = x :: removeFirst xs c from by
        simp [removeFirst, h]]
      exact List.Sublist.cons₂ x ih

/-- A successful dictionary lookup returns a pool member with that endpoint. -/
theorem oldLookup_mem {orig : List Connection} {e : Endpoint} {c : Connection}
    (h : oldLookup orig e = some c) : c ∈ orig ∧ c.endpoint = e := by
  unfold oldLookup at h
  have hc := List.mem_of_mem_getLast? h
  have hf := List.mem_filter.mp hc
  exact ⟨hf.1, by simpa using hf.2⟩

/-- A failed lookup means no pool member has that endpoint. -/
theorem oldLookup_eq_none {orig : List Connection} {e : Endpoint} :
    oldLookup orig e = none ↔ ∀ c ∈ orig, c.endpoint ≠ e := by
  unfold oldLookup
  rw [List.getLast?_eq_none_iff, List.filter_eq_nil_iff]
  simp

/-- Under endpoint-uniqueness, the pool index maps a member's endpoint to that
very member. -/
theorem oldLookup_self {orig : List Connection}
    (hnd : (orig.map Connection.endpoint).Nodup) {c : Connection} (hc : c ∈ orig) :
    oldLookup orig c.endpoint = some c := by
  unfold oldLookup
  have hfe : orig.filter (fun x => decide (x.endpoint = c.endpoint)) = [c] := by
    induction orig with
    | nil => cases hc
    | cons a xs ih =>
      rw [List.map_cons, List.nodup_cons] at hnd
      by_cases hca : c = a
      · rw [hca]
        rw [List.filter_cons_of_pos (by simp)]
        have hnil : xs.filter (fun x => decide (x.endpoint = a.endpoint)) = [] := by
          rw [List.filter_eq_nil_iff]
          intro x hx
          simp only [decide_eq_true_eq]
          intro hxe
          exact hnd.1 (hxe ▸ List.mem_map_of_mem Connection.endpoint hx)
        rw [hnil]
      · have hc' : c ∈ xs := (List.mem_cons.mp hc).resolve_left hca
        have hne : ¬ a.endpoint = c.endpoint :=
          fun hh => hnd.1 (hh ▸ List.mem_map_of_mem Connection.endpoint hc')
        rw [List.filter_cons_of_neg (by simpa using hne)]
        exact ih hnd.2 hc'
  rw [hfe]
  rfl

/-- `detach` of the reused connection removes exactly the connections carrying
its endpoint, given distinct connection objects and the endpoint-uniqueness
guaranteed by `oldLookup`'s index. -/
theorem removeFirst_eq_filter {l : List Connection} {c : Connection}
    (hl : l.Nodup) (h : ∀ x ∈ l, x.endpoint = c.endpoint → x = c) :
    removeFirst l c = l.filter (fun x => decide (¬ x.endpoint = c.endpoint)) := by
  induction l with
  | nil => rfl
  | cons a xs ih =>
    rw [List.nodup_cons] at hl
    by_cases hac : a = c
    · subst hac
      rw [show removeFirst (a :: xs) a = xs from by simp [removeFirst]]
      rw [List.filter_cons_of_neg (by simp)]
      exact (List.filter_eq_self.mpr fun x hx => by
        simp only [decide_eq_true_eq]
        intro hxe
        exact hl.1 (h x (List.mem_cons_of_mem _ hx) hxe ▸ hx)).symm
    · have hae : ¬ a.endpoint = c.endpoint :=
        fun hh => hac (h a (List.mem_cons_self _ _) hh)
      rw [show removeFirst (a :: xs) c = a :: removeFirst xs c from by
        simp [removeFirst, hac]]
      rw [List.filter_cons_of_pos (by simpa using hae)]
      rw [ih hl.2 (fun x hx => h x (List.mem_cons_of_mem _ hx))]

/-- Closed form of the reinit loop on genuine `Endpoint` entries: the built
list is `buildList`, the pool left to close is exactly the connections whose
endpoint is no longer wanted, and the counter advances with the fresh
connections — provided the pool holds distinct objects on distinct
endpoints. -/
theorem reinitLoopE_closed (orig : List Connection)
    (hno : orig.Nodup) (hnd : (orig.map Connection.endpoint).Nodup) :
    ∀ (eps : List Endpoint) (built remaining : List Connection) (nid : Nat),
      List.Sublist remaining orig →
      reinitLoopE orig (eps.map .ep) built remaining nid =
        .ok (built ++ buildList orig eps nid,
             remaining.filter (fun c => decide (c.endpoint ∉ eps)),
             nidAfter orig eps nid) := by
  intro eps
  induction eps with
  | nil =>
    intro built remaining nid hsub
    simp [reinitLoopE, buildList, nidAfter]
  | cons e es ih =>
    intro built remaining nid hsub
    rw [List.map_cons]
    cases h : oldLookup orig e with
    | some c =>
      obtain ⟨hcm, hce⟩ := oldLookup_mem h
      have hrm : removeFirst remaining c =
          remaining.filter (fun x => decide (¬ x.endpoint = c.endpoint)) :=
        removeFirst_eq_filter (List.Nodup.sublist hsub hno)
          (fun x hx hxe => List.inj_on_of_nodup_map hnd (hsub.subset hx) hcm hxe)
      simp only [reinitLoopE, h]
      rw [hrm, ih (built ++ [c])
        (remaining.filter (fun x => decide (¬ x.endpoint = c.endpoint))) nid
        ((List.filter_sublist _).trans hsub)]
      have hfilters : (remaining.filter
            (fun x => decide (¬ x.endpoint = c.endpoint))).filter
            (fun x => decide (x.endpoint ∉ es)) =
          remaining.filter (fun x => decide (x.endpoint ∉ e :: es)) := by
        rw [List.filter_filter]
        refine List.filter_congr (fun x hx => ?_)
        rw [hce]
        simp only [List.mem_cons, not_or, decide_not]
        rw [Bool.and_comm]
        simp [Bool.decide_and]
      rw [hfilters]
      simp [buildList, nidAfter, h, List.append_assoc]
    | none =>
      have hnone := oldLookup_eq_none.mp h
      simp only [reinitLoopE, h]
      rw [ih (built ++ [Connection.mk nid e]) remaining (nid + 1) hsub]
      have hfilters : remaining.filter (fun x => decide (x.endpoint ∉ es)) =
          remaining.filter (fun x => decide (x.endpoint ∉ e :: es)) := by
        refine List.filter_congr (fun x hx => ?_)
        have hxe : x.endpoint ≠ e := hnone x (hsub.subset hx)
        simp [List.mem_cons, not_or, hxe]
      rw [hfilters]
      simp [buildList, nidAfter, h, List.append_assoc]

/-- A reused connection appears in the built list. -/
theorem buildList_mem_reused (orig : List Connection) (c : Connection) :
    ∀ (eps : List Endpoint) (nid : Nat) (e : Endpoint), e ∈ eps →
      oldLookup orig e = some c → c ∈ buildList orig eps nid := by
  intro eps
  induction eps with
  | nil =>
    intro nid e he
    cases he
  | cons e' es ih =>
    intro nid e he hl
    rcases List.mem_cons.mp he with rfl | he'
    · simp only [buildList, hl]
      exact List.mem_cons_self _ _
    · cases h' : oldLookup orig e' with
      | some c' =>
        simp only [buildList, h']
        exact List.mem_cons_of_mem _ (ih nid e he' hl)
      | none =>
        simp only [buildList, h']
        exact List.mem_cons_of_mem _ (ih (nid + 1) e he' hl)

/-- A genuinely new endpoint gets a fresh connection, numbered at least
`nid`. -/
theorem buildList_mem_fresh (orig : List Connection) :
    ∀ (eps : List Endpoint) (nid : Nat) (e : Endpoint), e ∈ eps →
      oldLookup orig e = none →
      ∃ k, nid ≤ k ∧ Connection.mk k e ∈ buildList orig eps nid := by
  intro eps
  induction eps with
  | nil =>
    intro nid e he
    cases he
  | cons e' es ih =>
    intro nid e he hl
    rcases List.mem_cons.mp he with rfl | he'
    · exact ⟨nid, Nat.le_refl _, by
        simp only [buildList, hl]
        exact List.mem_cons_self _ _⟩
    · cases h' : oldLookup orig e' with
      | some c' =>
        obtain ⟨k, hk, hm⟩ := ih nid e he' hl
        exact ⟨k, hk, by
          simp only [buildList, h']
          exact List.mem_cons_of_mem _ hm⟩
      | none =>
        obtain ⟨k, hk, hm⟩ := ih (nid + 1) e he' hl
        exact ⟨k, Nat.le_trans (Nat.le_succ _) hk, by
          simp only [buildList, h']
          exact List.mem_cons_of_mem _ hm⟩

/-- Claim C7: every pool reinitialization reuses, for each endpoint present
both before and after, the same `Connection` object (detached first, hence
absent from the closed set), constructs a fresh connection only for genuinely
new endpoints, and closes exactly the connections of endpoints no longer
present.  Hypotheses: `shuffle` permutes its input, and the pool holds
distinct connection objects on distinct endpoints — the invariant the code
maintains. -/
theorem reinitPreservesConnections
    (shuffle : List Connection → List Connection)
    (hsh : ∀ l, List.Perm (shuffle l) l)
    (st : TransportState) (eps : List Endpoint)
    (hf : st.endpointsField = eps.map .ep)
    (hno : st.pool.Nodup) (hnd : (st.pool.map Connection.endpoint).Nodup) :
    ∃ st', reinitializeEndpoints shuffle st = (st', .ok ()) ∧
      (∀ c ∈ st.pool, c.endpoint ∈ eps → c ∈ st'.pool) ∧
      (∀ e ∈ eps, (∀ c ∈ st.pool, c.endpoint ≠ e) →
         ∃ k, st.nextId ≤ k ∧ Connection.mk k e ∈ st'.pool) ∧
      st'.closed = st.closed ++ st.pool.filter (fun c => decide (c.endpoint ∉ eps)) := by
  have hmain := reinitLoopE_closed st.pool hno hnd eps [] st.pool st.nextId
    (List.Sublist.refl _)
  refine ⟨{ st with
      pool := shuffle ([] ++ buildList st.pool eps st.nextId)
      nextId := nidAfter st.pool eps st.nextId
      closed := st.closed ++ st.pool.filter (fun c => decide (c.endpoint ∉ eps)) },
    ?_, ?_, ?_, ?_⟩
  · unfold reinitializeEndpoints
    rw [hf, hmain]
  · intro c hc he
    have hb : c ∈ buildList st.pool eps st.nextId :=
      buildList_mem_reused st.pool c eps st.nextId c.endpoint he (oldLookup_self hnd hc)
    exact ((hsh _).mem_iff).mpr (by simpa using hb)
  · intro e he hnone
    obtain ⟨k, hk, hm⟩ := buildList_mem_fresh st.pool eps st.nextId e he
      (oldLookup_eq_none.mpr hnone)
    exact ⟨k, hk, ((hsh _).mem_iff).mpr (by simpa using hm)⟩
  · rfl

/-- Endpoints and a state for the C7 witness: pool `[conn A, conn B]`, new
topology `[A, C]`. -/
def epA : Endpoint :=
  Endpoint.mk "a-node" 9200

/-- Endpoint B of the C7 witness. -/
def epB : Endpoint :=
  Endpoint.mk "b-node" 9200

/-- Endpoint C of the C7 witness. -/
def epC : Endpoint :=
  Endpoint.mk "c-node" 9200

/-- The pre-reinit state of the C7 witness. -/
def reinitState : TransportState :=
  { baseState with
    pool := [Connection.mk 0 epA, Connection.mk 1 epB]
    endpointsField := [.ep epA, .ep epC]
    nextId := 2 }

/-- Witness for C7: reinitializing `[A, B]` to topology `[A, C]` keeps the A
connection, creates a fresh C connection, and closes the B connection. -/
theorem reinitPreservesConnectionsWitness :
    (∀ l : List Connection, List.Perm (id l) l) ∧
    reinitState.endpointsField = [epA, epC].map .ep ∧
    reinitState.pool.Nodup ∧
    (reinitState.pool.map Connection.endpoint).Nodup ∧
    (∃ st', reinitializeEndpoints id reinitState = (st', .ok ()) ∧
      (∀ c ∈ reinitState.pool, c.endpoint ∈ [epA, epC] → c ∈ st'.pool) ∧
      (∀ e ∈ [epA, epC], (∀ c ∈ reinitState.pool, c.endpoint ≠ e) →
         ∃ k, reinitState.nextId ≤ k ∧ Connection.mk k e ∈ st'.pool) ∧
      st'.closed = reinitState.closed ++
        reinitState.pool.filter (fun c => decide (c.endpoint ∉ [epA, epC]))) :=
  ⟨fun l => List.Perm.refl l, rfl, by decide, by decide,
   reinitPreservesConnections id (fun l => List.Perm.refl l) reinitState [epA, epC]
     rfl (by decide) (by decide)⟩

/-- Claim C10: `match.groupdict()` always contains the `port` key, the port of
every produced endpoint is the integer parsed from the match's `port` group,
and the `port = 9200` fallback branch is therefore unreachable: a matching node
either contributes `Endpoint(host, int(port))` or is filtered out. -/
theorem portFallbackUnreachable :
    (∀ m : AddrMatch, (groupdict m).lookup "port" = some m.port) ∧
    (∀ m : AddrMatch, portOfMatch m = parseNat m.port) ∧
    (∀ (n : Node) (ns : List Node) (m : AddrMatch),
       addressSearch (n.http_address.getD "") = some m →
       parseNodes (n :: ns) = parseNodes ns ∨
       parseNodes (n :: ns) = Endpoint.mk m.host (parseNat m.port) :: parseNodes ns) := by
  refine ⟨fun m => rfl, fun m => rfl, ?_⟩
  intro n ns m hm
  rw [show parseNodes (n :: ns) =
        (match addressSearch (n.http_address.getD "") with
         | none => parseNodes ns
         | some m =>
           if !(getAttr n.attributes "data" "true" == "false" &&
                getAttr n.attributes "client" "false" == "false" &&
                getAttr n.attributes "master" "true" == "true") then
             Endpoint.mk (hostOfMatch m) (portOfMatch m) :: parseNodes ns
           else
             parseNodes ns) from rfl, hm]
  cases hb : (getAttr n.attributes "data" "true" == "false" &&
              getAttr n.attributes "client" "false" == "false" &&
              getAttr n.attributes "master" "true" == "true") with
  | true => exact Or.inl (by simp)
  | false =>
    have hport : portOfMatch m = parseNat m.port := rfl
    have hhost : hostOfMatch m = m.host := rfl
    exact Or.inr (by simp [hport, hhost])

/-- A node whose address string has no `/host:port` suffix. -/
def nodeNoAddr : Node :=
  { http_address := some "tcp6-no-port-here"
    attributes := [] }

/-- Claim C9: `"foo/127.0.0.1:9300]"` parses to host `127.0.0.1` and port
`9300`; any successful match decomposes the string into a `/host:port` or
`/host:port]` suffix (so a string with no such suffix cannot match); and a node
whose address does not match is skipped, contributing nothing and raising
nothing. -/
theorem addressParsing :
    addressSearch "foo/127.0.0.1:9300]" = some (AddrMatch.mk "127.0.0.1" "9300") ∧
    parseNat "9300" = 9300 ∧
    (∀ (s : String) (m : AddrMatch), addressSearch s = some m →
       ∃ (pre opt : List Char),
         (opt = [] ∨ opt = [']']) ∧
         s.toList = pre ++ '/' :: (m.host.toList ++ ':' :: (m.port.toList ++ opt)) ∧
         m.port.toList ≠ [] ∧
         (∀ c ∈ m.port.toList, isDigitChar c = true) ∧
         (∀ c ∈ m.host.toList, isHostChar c = true)) ∧
    (∀ (n : Node) (ns : List Node),
       addressSearch (n.http_address.getD "") = none →
       parseNodes (n :: ns) = parseNodes ns) := by
  refine ⟨rfl, rfl, addressSearch_sound, ?_⟩
  intro n ns hm
  rw [show parseNodes (n :: ns) =
        (match addressSearch (n.http_address.getD "") with
         | none => parseNodes ns
         | some m =>
           if !(getAttr n.attributes "data" "true" == "false" &&
                getAttr n.attributes "client" "false" == "false" &&
                getAttr n.attributes "master" "true" == "true") then
             Endpoint.mk (hostOfMatch m) (portOfMatch m) :: parseNodes ns
           else
             parseNodes ns) from rfl, hm]

/-- Witness for C9's conditional parts: the decomposition at the example
string, and the skip at a suffix-less node. -/
theorem addressParsingWitness :
    addressSearch "foo/127.0.0.1:9300]" = some (AddrMatch.mk "127.0.0.1" "9300") ∧
    (∃ (pre opt : List Char),
       (opt = [] ∨ opt = [']']) ∧
       "foo/127.0.0.1:9300]".toList =
         pre ++ '/' :: ((AddrMatch.mk "127.0.0.1" "9300").host.toList ++
           ':' :: ((AddrMatch.mk "127.0.0.1" "9300").port.toList ++ opt)) ∧
       (AddrMatch.mk "127.0.0.1" "9300").port.toList ≠ [] ∧
       (∀ c ∈ (AddrMatch.mk "127.0.0.1" "9300").port.toList, isDigitChar c = true) ∧
       (∀ c ∈ (AddrMatch.mk "127.0.0.1" "9300").host.toList, isHostChar c = true)) ∧
    addressSearch (nodeNoAddr.http_address.getD "") = none ∧
    parseNodes [nodeNoAddr] = parseNodes [] :=
  ⟨rfl,
   addressParsing.2.2.1 "foo/127.0.0.1:9300]" (AddrMatch.mk "127.0.0.1" "9300") rfl,
   rfl,
   addressParsing.2.2.2 nodeNoAddr [] rfl⟩

/-- Witness for C10's conditional part, at the data node. -/
theorem portFallbackUnreachableWitness :
    addressSearch (nodeA.http_address.getD "") = some (AddrMatch.mk "10.0.0.3" "9201") ∧
    (parseNodes [nodeA] = parseNodes [] ∨
     parseNodes [nodeA] =
       Endpoint.mk "10.0.0.3" (parseNat "9201") :: parseNodes []) :=
  ⟨rfl, portFallbackUnreachable.2.2 nodeA [] (AddrMatch.mk "10.0.0.3" "9201") rfl⟩

end Aioes
